import Mathlib

/-!
# Image-Classifier: feature distance, zoom bounds and task polling of the window

A shallow embedding of

* `src/library/Feature.cpp` (`Feature::calculate_distance`),
* `src/QCategoryView.cpp` (`QCategoryView::wheelEvent`),
* `src/interface/imageclassifierwindow.cpp` (`start_task`, `checkStatus`,
  `classClicked`, `addImages`, `render_class`, `setState`, `keyPressEvent`, ...).

The entries of a feature vector and the value of `cv::norm` are exact reals;
`Feature::calculate_distance` returns a `float`, so its result is that value
rounded to the nearest single-precision number. The zoom arithmetic is taken
over an arbitrary linearly ordered field (so that it can be run over the
rationals and holds over the reals).
-/

/-! ## Feature -/

/-- Rounding of a real to the nearest integer, a tie going to the even one. -/
noncomputable def roundTiesToEven (q : ℝ) : ℤ :=
  if q - ⌊q⌋ < 1 / 2 then ⌊q⌋
  else if 1 / 2 < q - ⌊q⌋ then ⌊q⌋ + 1
  else if ⌊q⌋ % 2 = 0 then ⌊q⌋
  else ⌊q⌋ + 1

/-- The conversion of a `double` to `float` that a `return` in a function of
result type `float` performs, on an IEEE 754 platform in the default rounding
mode: the value is rounded to the nearest single-precision number (24
significant bits, least exponent -126, subnormals spaced `2^-149`), a tie going
to the even significand. The `double` is taken as an exact real. Values that
round to `2^128` or more are out of the range of `float` (the conversion is
then not defined by the language); the formula is continued there with an
exponent range unbounded above. -/
noncomputable def float_of_double (x : ℝ) : ℝ :=
  if x = 0 then 0
  else
    let e : ℤ := max (Int.log 2 |x|) (-126)
    let ulp : ℝ := (2 : ℝ) ^ (e - 23)
    (if x < 0 then -1 else 1) * ((roundTiesToEven (|x| / ulp) : ℤ) : ℝ) * ulp

/-- Error kinds a distance computation can end in. -/
inductive Error where
  | DimensionMismatch
  deriving DecidableEq, Repr

namespace cv

/-- A feature matrix `cv::Mat`: the sequence of its entries, which are finite
numbers. -/
abbrev Mat := List ℝ

/-- Sum of the squared element-wise differences of two entry sequences, over any
ring of numbers (it can be run over the integers or the rationals). -/
def normL2Sqr {K : Type} [Ring K] : List K → List K → K
  | x :: xs, y :: ys => (x - y) ^ 2 + normL2Sqr xs ys
  | _, _ => 0

/-- Modelled from the spec: `cv::norm(src1, src2, cv::NORM_L2)` is a function of
the OpenCV library and is not under `src/`. Following the spec (§4.1, §7) it is
the Euclidean L2 norm of the element-wise difference of the two vectors, and it
fails with `DimensionMismatch` when the two vectors do not have the same number
of entries. Its `double` result is taken as the exact real. -/
noncomputable def norm (src1 src2 : Mat) : Except Error ℝ :=
  if src1.length = src2.length then
    Except.ok (Real.sqrt (normL2Sqr src1 src2))
  else
    Except.error Error.DimensionMismatch

end cv

/-- The class `Feature`: it owns one feature vector. -/
structure Feature where
  m_feature_vector : cv.Mat

namespace Feature

/-- The accessor `Feature::get_feature_vector`. -/
def get_feature_vector (f : Feature) : cv.Mat := f.m_feature_vector

/-- The dimension of the space a feature lives in. -/
def dimension (f : Feature) : Nat := f.get_feature_vector.length

/-- The method `Feature::calculate_distance` (`src/library/Feature.cpp`, lines 11-14):
the L2 Euclidean distance between the two vectors, as `cv::norm` computes it,
converted to the result type `float`. An error of `cv::norm` is passed on. -/
noncomputable def calculate_distance (self feature2 : Feature) : Except Error ℝ :=
  match cv.norm self.get_feature_vector feature2.get_feature_vector with
  | Except.ok d => Except.ok (float_of_double d)
  | Except.error e => Except.error e

end Feature

/-! ## QCategoryView -/

/-- The 3×3 matrix of a Qt `QTransform`, with entries in `K`. -/
structure QTransform (K : Type) where
  m11 : K
  m12 : K
  m13 : K
  m21 : K
  m22 : K
  m23 : K
  m31 : K
  m32 : K
  m33 : K
  deriving DecidableEq, Repr

namespace QTransform

variable {K : Type} [LinearOrderedField K]

/-- The identity transform, which a view starts with. -/
def identity : QTransform K :=
  { m11 := 1, m12 := 0, m13 := 0, m21 := 0, m22 := 1, m23 := 0, m31 := 0, m32 := 0, m33 := 1 }

/-- The Qt library method `QTransform::scale(sx, sy)` (Qt, not under `src/`): the
matrix is multiplied from the left by the scaling matrix `diag(sx, sy, 1)`, so
the first row is multiplied by `sx` and the second row by `sy`. -/
def scale (t : QTransform K) (sx sy : K) : QTransform K :=
  { t with
    m11 := t.m11 * sx, m12 := t.m12 * sx, m13 := t.m13 * sx,
    m21 := t.m21 * sy, m22 := t.m22 * sy, m23 := t.m23 * sy }

/-- The Qt library method `QTransform::setMatrix`: all nine entries are replaced. -/
def setMatrix (_t : QTransform K) (m11 m12 m13 m21 m22 m23 m31 m32 m33 : K) : QTransform K :=
  { m11 := m11, m12 := m12, m13 := m13, m21 := m21, m22 := m22, m23 := m23,
    m31 := m31, m32 := m32, m33 := m33 }

end QTransform

/-- The Qt helper `qMin(a, b)`, which is `(a < b) ? a : b`. -/
def qMin {K : Type} [LinearOrderedField K] (a b : K) : K := if a < b then a else b

/-- The Qt helper `qMax(a, b)`, which is `(a < b) ? b : a`. -/
def qMax {K : Type} [LinearOrderedField K] (a b : K) : K := if a < b then b else a

namespace QCategoryView

variable {K : Type} [LinearOrderedField K]

/-- The constant `max_zoom = 1.0` of `wheelEvent`. -/
def max_zoom : K := 1

/-- The constant `min_zoom = 0.2` of `wheelEvent`. -/
def min_zoom : K := 2 / 10

/-- The constant `zoom_speed = 0.15` of `wheelEvent`. -/
def zoom_speed : K := 15 / 100

/-- The method `QCategoryView::wheelEvent` (`src/QCategoryView.cpp`, lines 14-48).
`self` is the current transform of the view (`this->transform()`), `angleDeltaY` is
`e->angleDelta().y()`; the result is the transform handed to `setTransform`. -/
def wheelEvent (self : QTransform K) (angleDeltaY : Int) : QTransform K :=
  let mult : Int := if angleDeltaY > 0 then 1 else if angleDeltaY < 0 then -1 else 0
  let s : K := 1 + ((mult : Int) : K) * zoom_speed
  let t := self.scale s s
  let t :=
    if t.m11 > max_zoom ∨ t.m11 < min_zoom then
      let new_zoom := qMax (qMin max_zoom t.m11) min_zoom
      t.setMatrix new_zoom t.m12 t.m13 t.m21 new_zoom t.m23 t.m31 t.m32 t.m33
    else t
  t

end QCategoryView

/-! ## ImageClassifierWindow -/

/-- The enumeration `ProgramTask`. -/
inductive ProgramTask where
  | IDLE
  | POSITIONING
  | CLASSIFYING
  deriving DecidableEq, Repr

/-- The enumeration `BrowseState`. -/
inductive BrowseState where
  | CLASSES
  | CLASS
  | IMAGE
  deriving DecidableEq, Repr

/-- An `ImageClass*`, by pointer identity. -/
abbrev ImageClass := Nat

/-- An `Image*`, by pointer identity. -/
abbrev Image := Nat

/-- The three graphics scenes the constructor creates; the members
`m_scene_classes`, `m_scene_class` and `m_scene_image` are never reassigned, so
each is a fixed non-null pointer. -/
inductive Scene where
  | m_scene_classes
  | m_scene_class
  | m_scene_image
  deriving DecidableEq, Repr

/-- A piece of work handed to `QtConcurrent::run`. -/
inductive Job where
  | calculate_image_positions (image_class : ImageClass)
  | classify_images (image_files : List String)
  deriving DecidableEq, Repr

/-- A `QFuture` handle: default-constructed, or the handle of the `n`-th job that
was handed to `QtConcurrent::run`. -/
inductive QFuture where
  | null
  | handle (n : Nat)
  deriving DecidableEq, Repr

/-- The keys `keyPressEvent` tells apart. -/
inductive Key where
  | Key_Escape
  | Key_T
  | other
  deriving DecidableEq, Repr

/-- Calls on collaborators that the window makes, in the order it makes them. -/
inductive Event where
  /-- The call `m_positioner.result()` on the given handle. -/
  | result (f : QFuture)
  /-- The call `image_class->calculate_icon()`. -/
  | calculate_icon (c : ImageClass)
  /-- The call `m_class_to_displayer[image_class]->update_images()`. -/
  | update_images (c : ImageClass)
  /-- The call `m_class_to_displayer[image_class]->set_highlighted(b)`. -/
  | set_highlighted (c : ImageClass) (b : Bool)
  /-- The call `get_classifier()->train(get_image_classes())`. -/
  | train
  deriving DecidableEq, Repr

/-- The state of an `ImageClassifierWindow`: its members, the Qt objects it
drives, the jobs submitted to the thread pool and the calls made so far.
Scene contents, item positions and animations are not part of the state. -/
structure ImageClassifierWindow where
  m_state : BrowseState
  m_current_task : ProgramTask
  /-- The member `m_current_class`; `none` is the null pointer. -/
  m_current_class : Option ImageClass
  m_positioner : QFuture
  m_classifierProcess : QFuture
  m_image_removed : Bool
  m_new_image_map : ImageClass → List Image
  /-- The list `m_manager->get_image_classes()`. -/
  image_classes : List ImageClass
  /-- The value `image_class->get_image_count()` of each class. -/
  image_count : ImageClass → Nat
  /-- The timer `m_status_checker`: `none` when stopped, `some msec` when running. -/
  m_status_checker : Option Nat
  /-- Whether `ui.view` is enabled. -/
  view_enabled : Bool
  /-- The scene `ui.view` shows. -/
  view_scene : Option Scene
  /-- Whether `m_loading_screen` is shown. -/
  loading_screen_shown : Bool
  /-- The jobs handed to `QtConcurrent::run` so far, oldest first. -/
  submitted : List Job
  /-- The calls on collaborators made so far, oldest first. -/
  log : List Event

namespace ImageClassifierWindow

/-- Record one call on a collaborator. -/
def emit (e : Event) (w : ImageClassifierWindow) : ImageClassifierWindow :=
  { w with log := w.log ++ [e] }

/-- The call `QtConcurrent::run(this, job)`: the job is queued on the thread pool
and a fresh handle for it is returned. -/
def run (job : Job) (w : ImageClassifierWindow) : QFuture × ImageClassifierWindow :=
  (QFuture.handle w.submitted.length, { w with submitted := w.submitted ++ [job] })

/-- The job a handle stands for. -/
def job_of (w : ImageClassifierWindow) : QFuture → Option Job
  | QFuture.null => none
  | QFuture.handle n => w.submitted.get? n

/-- The calls made between an earlier state and a later one. -/
def emitted (before after : ImageClassifierWindow) : List Event :=
  after.log.drop before.log.length

/-- The method `update_class` (lines 479-485). -/
def update_class (image_class : ImageClass) (w : ImageClassifierWindow) :
    ImageClassifierWindow :=
  if w.image_count image_class > 0 then
    (w.emit (Event.calculate_icon image_class)).emit (Event.update_images image_class)
  else w

/-- The method `remove_highlight` (lines 472-477). -/
def remove_highlight (image_class : ImageClass) (w : ImageClassifierWindow) :
    ImageClassifierWindow :=
  let w := { w with m_new_image_map := Function.update w.m_new_image_map image_class [] }
  w.emit (Event.set_highlighted image_class false)

/-- The method `setState` (lines 351-417). The stored and restored view
positions are not modelled. -/
def setState (state : BrowseState) (w : ImageClassifierWindow) : ImageClassifierWindow :=
  let r : Option Scene × ImageClassifierWindow :=
    if w.m_state = BrowseState.CLASSES ∧ state = BrowseState.CLASS then
      (some Scene.m_scene_class, w)
    else if w.m_state = BrowseState.CLASS ∧ state = BrowseState.IMAGE then
      (some Scene.m_scene_image, w)
    else if state = BrowseState.CLASSES then
      let w :=
        match w.m_current_class with
        | some c =>
          let w := if w.m_image_removed then update_class c w else w
          remove_highlight c w
        | none => w
      let w := { w with m_image_removed := false }
      (some Scene.m_scene_classes, w)
    else if state = BrowseState.CLASS then
      (some Scene.m_scene_class, w)
    else
      (none, w)
  match r.1 with
  | some new_scene => { r.2 with view_scene := some new_scene, m_state := state }
  | none => r.2

/-- The method `setup_classes` (lines 58-98), as far as the state goes: the icon
of every class is calculated and the state is set to `CLASSES`. -/
def setup_classes (w : ImageClassifierWindow) : ImageClassifierWindow :=
  let w := w.image_classes.foldl (fun w c => w.emit (Event.calculate_icon c)) w
  setState BrowseState.CLASSES w

/-- The constructor (lines 14-51), for a manager with the given classes.
`m_image_removed` is not initialised by the constructor itself; the `setState`
call of `setup_classes` assigns it. -/
def new (image_classes : List ImageClass) (image_count : ImageClass → Nat) :
    ImageClassifierWindow :=
  setup_classes
    { m_state := BrowseState.CLASSES
      m_current_task := ProgramTask.IDLE
      m_current_class := none
      m_positioner := QFuture.null
      m_classifierProcess := QFuture.null
      m_image_removed := false
      m_new_image_map := fun _ => []
      image_classes := image_classes
      image_count := image_count
      m_status_checker := none
      view_enabled := true
      view_scene := none
      loading_screen_shown := false
      submitted := []
      log := [] }

/-- The method `render_class` (lines 100-209): it reads `m_positioner.result()`,
fills the class scene from it and sets the state to `CLASS`. -/
def render_class (w : ImageClassifierWindow) : ImageClassifierWindow :=
  let w := w.emit (Event.result w.m_positioner)
  setState BrowseState.CLASS w

/-- The method `start_task` (lines 211-225). -/
def start_task (task : ProgramTask) (w : ImageClassifierWindow) : ImageClassifierWindow :=
  let w :=
    if task ≠ ProgramTask.IDLE then
      { w with view_enabled := false, loading_screen_shown := true }
    else w
  let w := { w with m_current_task := task }
  { w with m_status_checker := some 100 }

/-- The slot `checkStatus` (lines 227-262). `isFinished f` is what
`f.isFinished()` returns at the time of this call. -/
def checkStatus (isFinished : QFuture → Bool) (w : ImageClassifierWindow) :
    ImageClassifierWindow :=
  let r : Bool × ImageClassifierWindow :=
    if w.m_current_task = ProgramTask.POSITIONING then
      if isFinished w.m_positioner then
        (true, render_class w)
      else (false, w)
    else if w.m_current_task = ProgramTask.CLASSIFYING then
      let has_finished := isFinished w.m_classifierProcess
      if has_finished then
        (has_finished, w.image_classes.foldl
          (fun w image_class =>
            if (w.m_new_image_map image_class).length > 0 then update_class image_class w
            else w) w)
      else (has_finished, w)
    else (false, w)
  if r.1 then
    { r.2 with
      m_status_checker := none
      view_enabled := true
      loading_screen_shown := false
      m_current_task := ProgramTask.IDLE }
  else r.2

/-- The slot `classClicked` (lines 276-282). -/
def classClicked (class_clicked : ImageClass) (w : ImageClassifierWindow) :
    ImageClassifierWindow :=
  let w := { w with m_current_class := some class_clicked }
  let r := run (Job.calculate_image_positions class_clicked) w
  let w := { r.2 with m_positioner := r.1 }
  start_task ProgramTask.POSITIONING w

/-- The slot `addImages` (lines 432-436). -/
def addImages (image_files : List String) (w : ImageClassifierWindow) :
    ImageClassifierWindow :=
  let r := run (Job.classify_images image_files) w
  let w := { r.2 with m_classifierProcess := r.1 }
  start_task ProgramTask.CLASSIFYING w

/-- The method `keyPressEvent` (lines 331-349). -/
def keyPressEvent (e : Key) (w : ImageClassifierWindow) : ImageClassifierWindow :=
  match e with
  | Key.Key_Escape =>
    if w.m_state = BrowseState.CLASS then setState BrowseState.CLASSES w
    else if w.m_state = BrowseState.IMAGE then setState BrowseState.CLASS w
    else w
  | Key.Key_T => w.emit Event.train
  | Key.other => w

/-- A run of polls: `checkStatus` called once per entry, each entry giving what
`isFinished` answers at that poll. -/
def polls (answers : List (QFuture → Bool)) (w : ImageClassifierWindow) :
    ImageClassifierWindow :=
  answers.foldl (fun w isFinished => checkStatus isFinished w) w

end ImageClassifierWindow

namespace ImageClassifierWindow

/-- A window just constructed over two classes of three images each. -/
def exampleWindow : ImageClassifierWindow := new [0, 1] (fun _ => 3)

/-- The example window after class `0` was clicked, before any poll. -/
def examplePositioning : ImageClassifierWindow := classClicked 0 exampleWindow

/-- The example window after files were dropped on it, before any poll. -/
def exampleClassifying : ImageClassifierWindow := addImages [] exampleWindow

/-- The example window browsing class `0`: the class was clicked and a poll found
the positioning finished. -/
def exampleClassView : ImageClassifierWindow := checkStatus (fun _ => true) examplePositioning

/-- The example window browsing one image of class `0`: the state a left click
on an image sets (`imageClicked`, line 322). -/
def exampleImageView : ImageClassifierWindow := setState BrowseState.IMAGE exampleClassView

end ImageClassifierWindow

/-- The handles whose `result()` was read, in a list of calls, in order. -/
def Event.reads : List Event → List QFuture
  | [] => []
  | Event.result f :: es => f :: Event.reads es
  | _ :: es => Event.reads es

/-- The later state `w2` differs from `w1` at most in the browse state, the
scene shown, the highlight bookkeeping and further calls other than
`m_positioner.result()`. -/
def ImageClassifierWindow.Frame (w1 w2 : ImageClassifierWindow) : Prop :=
  w2.m_current_task = w1.m_current_task ∧
  w2.m_current_class = w1.m_current_class ∧
  w2.m_positioner = w1.m_positioner ∧
  w2.m_classifierProcess = w1.m_classifierProcess ∧
  w2.image_classes = w1.image_classes ∧
  w2.image_count = w1.image_count ∧
  w2.m_status_checker = w1.m_status_checker ∧
  w2.view_enabled = w1.view_enabled ∧
  w2.loading_screen_shown = w1.loading_screen_shown ∧
  w2.submitted = w1.submitted ∧
  ∃ evs, w2.log = w1.log ++ evs ∧ Event.reads evs = []

/-! ### Lemmas on the sum of squares -/

theorem cv.normL2Sqr_comm : ∀ (a b : cv.Mat), cv.normL2Sqr a b = cv.normL2Sqr b a
  | [], [] => by simp [cv.normL2Sqr]
  | [], _ :: _ => by simp [cv.normL2Sqr]
  | _ :: _, [] => by simp [cv.normL2Sqr]
  | x :: xs, y :: ys => by
    simp only [cv.normL2Sqr, cv.normL2Sqr_comm xs ys]
    ring

theorem int_log_two_eq (x : ℝ) (k : ℤ) (hx : 0 < x) (h1 : (2 : ℝ) ^ k ≤ x)
    (h2 : x < (2 : ℝ) ^ (k + 1)) : Int.log 2 x = k := by
  have a : k ≤ Int.log 2 x := by
    rw [← Int.zpow_le_iff_le_log (by norm_num) hx]
    simpa using h1
  have b : Int.log 2 x < k + 1 := by
    rw [← Int.lt_zpow_iff_log_lt (by norm_num) hx]
    simpa using h2
  omega

theorem roundTiesToEven_intCast (n : ℤ) : roundTiesToEven (n : ℝ) = n := by
  simp [roundTiesToEven]

/-- The conversion of a positive value lying in the binade `[2^k, 2^(k+1))`. -/
theorem float_of_double_pos (x : ℝ) (k : ℤ) (hx : 0 < x) (h1 : (2 : ℝ) ^ k ≤ x)
    (h2 : x < (2 : ℝ) ^ (k + 1)) :
    float_of_double x =
      ((roundTiesToEven (x / (2 : ℝ) ^ (max k (-126) - 23)) : ℤ) : ℝ) *
        (2 : ℝ) ^ (max k (-126) - 23) := by
  have hl := int_log_two_eq x k hx h1 h2
  simp only [float_of_double, if_neg hx.ne', abs_of_pos hx, hl, if_neg (not_lt.mpr hx.le)]
  ring

theorem float_of_double_five : float_of_double 5 = 5 := by
  rw [float_of_double_pos _ 2 (by norm_num) (by norm_num) (by norm_num)]
  have e : (5 : ℝ) / (2 : ℝ) ^ (max (2 : ℤ) (-126) - 23) = ((10485760 : ℤ) : ℝ) := by
    norm_num
  rw [e, roundTiesToEven_intCast]
  norm_num

/-! ### Feature::calculate_distance -/

theorem Feature.calculate_distance_ok (a b : Feature) (h : a.dimension = b.dimension) :
    a.calculate_distance b =
      Except.ok (float_of_double
        (Real.sqrt (cv.normL2Sqr a.get_feature_vector b.get_feature_vector))) := by
  unfold Feature.dimension at h
  simp [Feature.calculate_distance, cv.norm, h]

/-- C1: for two features of the same dimension the distance is symmetric: both
calls return a distance, and it is the same one. -/
theorem Feature.calculate_distance_symmetric (a b : Feature)
    (h : a.dimension = b.dimension) :
    ∃ d : ℝ, a.calculate_distance b = Except.ok d ∧ b.calculate_distance a = Except.ok d := by
  refine ⟨float_of_double
    (Real.sqrt (cv.normL2Sqr a.get_feature_vector b.get_feature_vector)), ?_, ?_⟩
  · exact Feature.calculate_distance_ok a b h
  · rw [Feature.calculate_distance_ok b a h.symm, cv.normL2Sqr_comm]

theorem Feature.calculate_distance_symmetric_witness :
    Feature.dimension ⟨[1, 2]⟩ = Feature.dimension ⟨[4, 6]⟩ ∧
      ∃ d : ℝ, Feature.calculate_distance ⟨[1, 2]⟩ ⟨[4, 6]⟩ = Except.ok d ∧
        Feature.calculate_distance ⟨[4, 6]⟩ ⟨[1, 2]⟩ = Except.ok d :=
  ⟨rfl, Feature.calculate_distance_symmetric ⟨[1, 2]⟩ ⟨[4, 6]⟩ rfl⟩

/-- C4: for two features of different dimensions `calculate_distance` fails with
`DimensionMismatch`, and for two features of equal dimension it returns a
distance. -/
theorem Feature.calculate_distance_dimension (a b : Feature) :
    (a.dimension ≠ b.dimension →
      a.calculate_distance b = Except.error Error.DimensionMismatch) ∧
    (a.dimension = b.dimension → ∃ d : ℝ, a.calculate_distance b = Except.ok d) := by
  constructor
  · intro h
    unfold Feature.dimension at h
    simp [Feature.calculate_distance, cv.norm, h]
  · intro h
    exact ⟨_, Feature.calculate_distance_ok a b h⟩

theorem Feature.calculate_distance_dimension_witness :
    (Feature.dimension ⟨[1, 2]⟩ ≠ Feature.dimension ⟨[1, 2, 3]⟩ ∧
      Feature.calculate_distance ⟨[1, 2]⟩ ⟨[1, 2, 3]⟩ = Except.error Error.DimensionMismatch) ∧
    (Feature.dimension ⟨[1, 2]⟩ = Feature.dimension ⟨[4, 6]⟩ ∧
      ∃ d : ℝ, Feature.calculate_distance ⟨[1, 2]⟩ ⟨[4, 6]⟩ = Except.ok d) :=
  ⟨⟨by decide, (Feature.calculate_distance_dimension ⟨[1, 2]⟩ ⟨[1, 2, 3]⟩).1 (by decide)⟩,
    ⟨rfl, (Feature.calculate_distance_dimension ⟨[1, 2]⟩ ⟨[4, 6]⟩).2 rfl⟩⟩

theorem Feature.calculate_distance_example :
    Feature.calculate_distance ⟨[0, 0]⟩ ⟨[3, 4]⟩ = Except.ok 5 := by
  have e := Feature.calculate_distance_ok ⟨[0, 0]⟩ ⟨[3, 4]⟩ rfl
  rw [e]
  have h : cv.normL2Sqr (Feature.get_feature_vector ⟨[0, 0]⟩)
      (Feature.get_feature_vector ⟨[3, 4]⟩) = 5 ^ 2 := by
    simp only [Feature.get_feature_vector, cv.normL2Sqr]
    norm_num
  rw [h, Real.sqrt_sq (by norm_num), float_of_double_five]

theorem cv.normL2Sqr_example :
    cv.normL2Sqr [(0 : ℤ), 0] [3, 4] = 25 ∧ cv.normL2Sqr [(1 : ℤ), 2] [1, 2] = 0 := by
  decide

/-! ### QCategoryView::wheelEvent -/

section WheelEvent

variable {K : Type} [LinearOrderedField K]

theorem QCategoryView.min_zoom_le_max_zoom :
    (QCategoryView.min_zoom : K) ≤ QCategoryView.max_zoom := by
  unfold QCategoryView.min_zoom QCategoryView.max_zoom
  norm_num

/-- The clamp `qMax(qMin(max_zoom, z), min_zoom)` lies within the zoom bounds. -/
theorem QCategoryView.clamp_bounds (z : K) :
    QCategoryView.min_zoom ≤ qMax (qMin QCategoryView.max_zoom z) QCategoryView.min_zoom ∧
      qMax (qMin QCategoryView.max_zoom z) QCategoryView.min_zoom ≤ QCategoryView.max_zoom := by
  have hmm := QCategoryView.min_zoom_le_max_zoom (K := K)
  unfold qMax qMin
  split_ifs with h1 h2 h2
  · exact ⟨le_refl _, hmm⟩
  · exact ⟨not_lt.mp h2, le_refl _⟩
  · exact ⟨le_refl _, hmm⟩
  · exact ⟨not_lt.mp h2, not_lt.mp h1⟩

theorem QCategoryView.wheelEvent_m11_bounds (t : QTransform K) (angleDeltaY : Int) :
    QCategoryView.min_zoom ≤ (QCategoryView.wheelEvent t angleDeltaY).m11 ∧
      (QCategoryView.wheelEvent t angleDeltaY).m11 ≤ QCategoryView.max_zoom := by
  have key : ∀ u : QTransform K,
      QCategoryView.min_zoom ≤
        (if u.m11 > QCategoryView.max_zoom ∨ u.m11 < QCategoryView.min_zoom then
          u.setMatrix (qMax (qMin QCategoryView.max_zoom u.m11) QCategoryView.min_zoom)
            u.m12 u.m13 u.m21
            (qMax (qMin QCategoryView.max_zoom u.m11) QCategoryView.min_zoom)
            u.m23 u.m31 u.m32 u.m33
        else u).m11 ∧
      (if u.m11 > QCategoryView.max_zoom ∨ u.m11 < QCategoryView.min_zoom then
          u.setMatrix (qMax (qMin QCategoryView.max_zoom u.m11) QCategoryView.min_zoom)
            u.m12 u.m13 u.m21
            (qMax (qMin QCategoryView.max_zoom u.m11) QCategoryView.min_zoom)
            u.m23 u.m31 u.m32 u.m33
        else u).m11 ≤ QCategoryView.max_zoom := by
    intro u
    split_ifs with h
    · simpa [QTransform.setMatrix] using QCategoryView.clamp_bounds u.m11
    · rw [not_or] at h
      exact ⟨not_lt.mp h.2, not_lt.mp h.1⟩
  exact key _

theorem QCategoryView.wheelEvent_m11_m22 (t : QTransform K) (angleDeltaY : Int)
    (h : t.m11 = t.m22) :
    (QCategoryView.wheelEvent t angleDeltaY).m11 =
      (QCategoryView.wheelEvent t angleDeltaY).m22 := by
  have key : ∀ u : QTransform K, u.m11 = u.m22 →
      (if u.m11 > QCategoryView.max_zoom ∨ u.m11 < QCategoryView.min_zoom then
          u.setMatrix (qMax (qMin QCategoryView.max_zoom u.m11) QCategoryView.min_zoom)
            u.m12 u.m13 u.m21
            (qMax (qMin QCategoryView.max_zoom u.m11) QCategoryView.min_zoom)
            u.m23 u.m31 u.m32 u.m33
        else u).m11 =
      (if u.m11 > QCategoryView.max_zoom ∨ u.m11 < QCategoryView.min_zoom then
          u.setMatrix (qMax (qMin QCategoryView.max_zoom u.m11) QCategoryView.min_zoom)
            u.m12 u.m13 u.m21
            (qMax (qMin QCategoryView.max_zoom u.m11) QCategoryView.min_zoom)
            u.m23 u.m31 u.m32 u.m33
        else u).m22 := by
    intro u hu
    split_ifs with hc
    · simp [QTransform.setMatrix]
    · exact hu
  exact key _ (by simp [QTransform.scale, h])

end WheelEvent

/-- C8: for every current transform and every wheel event the transform set by
`wheelEvent` has `0.2 ≤ m11 ≤ 1.0`, over the reals. -/
theorem QCategoryView.wheelEvent_zoom_bounded (t : QTransform ℝ) (angleDeltaY : Int) :
    (0.2 : ℝ) ≤ (QCategoryView.wheelEvent t angleDeltaY).m11 ∧
      (QCategoryView.wheelEvent t angleDeltaY).m11 ≤ (1.0 : ℝ) := by
  have h := QCategoryView.wheelEvent_m11_bounds t angleDeltaY
  have e1 : (QCategoryView.min_zoom : ℝ) = 0.2 := by
    unfold QCategoryView.min_zoom; norm_num
  have e2 : (QCategoryView.max_zoom : ℝ) = 1.0 := by
    unfold QCategoryView.max_zoom; norm_num
  rw [e1, e2] at h
  exact h

/-- C9: if the current transform has `m11 = m22`, the transform set by
`wheelEvent` has `m11 = m22` again, whether the scaled value was within the zoom
bounds or was clamped; so `m22` is within the zoom bounds as well. -/
theorem QCategoryView.wheelEvent_axes_equal (t : QTransform ℝ) (angleDeltaY : Int)
    (h : t.m11 = t.m22) :
    (QCategoryView.wheelEvent t angleDeltaY).m11 =
        (QCategoryView.wheelEvent t angleDeltaY).m22 ∧
      (0.2 : ℝ) ≤ (QCategoryView.wheelEvent t angleDeltaY).m22 ∧
      (QCategoryView.wheelEvent t angleDeltaY).m22 ≤ (1.0 : ℝ) := by
  have e := QCategoryView.wheelEvent_m11_m22 t angleDeltaY h
  have hb := QCategoryView.wheelEvent_m11_bounds t angleDeltaY
  have e1 : (QCategoryView.min_zoom : ℝ) = 0.2 := by
    unfold QCategoryView.min_zoom; norm_num
  have e2 : (QCategoryView.max_zoom : ℝ) = 1.0 := by
    unfold QCategoryView.max_zoom; norm_num
  rw [e1, e2, e] at hb
  exact ⟨e, hb⟩

theorem QCategoryView.wheelEvent_axes_equal_witness :
    (QTransform.identity : QTransform ℝ).m11 = (QTransform.identity : QTransform ℝ).m22 ∧
      (QCategoryView.wheelEvent (QTransform.identity : QTransform ℝ) 120).m11 =
        (QCategoryView.wheelEvent (QTransform.identity : QTransform ℝ) 120).m22 ∧
      (0.2 : ℝ) ≤ (QCategoryView.wheelEvent (QTransform.identity : QTransform ℝ) 120).m22 ∧
      (QCategoryView.wheelEvent (QTransform.identity : QTransform ℝ) 120).m22 ≤ (1.0 : ℝ) :=
  ⟨rfl, QCategoryView.wheelEvent_axes_equal QTransform.identity 120 rfl⟩

/-- Scrolling up from the identity is clamped to `max_zoom`; scrolling down from
it gives `0.85` on both axes (evaluated over the rationals). -/
theorem QCategoryView.wheelEvent_examples :
    QCategoryView.wheelEvent (QTransform.identity : QTransform ℚ) 120 = QTransform.identity ∧
    (QCategoryView.wheelEvent (QTransform.identity : QTransform ℚ) (-120)).m11 = 85 / 100 ∧
    (QCategoryView.wheelEvent (QTransform.identity : QTransform ℚ) (-120)).m22 = 85 / 100 ∧
    QCategoryView.wheelEvent (QTransform.identity : QTransform ℚ) 0 = QTransform.identity := by
  refine ⟨?_, ?_, ?_, ?_⟩ <;>
    norm_num [QCategoryView.wheelEvent, QTransform.scale, QTransform.setMatrix,
      QTransform.identity, qMax, qMin, QCategoryView.zoom_speed, QCategoryView.max_zoom,
      QCategoryView.min_zoom]

/-! ### ImageClassifierWindow: frame lemmas -/

theorem Event.reads_append (xs ys : List Event) :
    Event.reads (xs ++ ys) = Event.reads xs ++ Event.reads ys := by
  induction xs with
  | nil => rfl
  | cons e es ih => cases e <;> simp [Event.reads, ih]

theorem Event.mem_reads (f : QFuture) (es : List Event) :
    f ∈ Event.reads es ↔ Event.result f ∈ es := by
  induction es with
  | nil => simp [Event.reads]
  | cons e es ih => cases e <;> simp [Event.reads, ih]

namespace ImageClassifierWindow

theorem emitted_of_log {w1 w2 : ImageClassifierWindow} {evs : List Event}
    (h : w2.log = w1.log ++ evs) : emitted w1 w2 = evs := by
  simp [emitted, h]

theorem Frame.refl (w : ImageClassifierWindow) : Frame w w :=
  ⟨rfl, rfl, rfl, rfl, rfl, rfl, rfl, rfl, rfl, rfl, [], by simp, rfl⟩

theorem Frame.trans {w1 w2 w3 : ImageClassifierWindow} (h12 : Frame w1 w2) (h23 : Frame w2 w3) :
    Frame w1 w3 := by
  obtain ⟨a1, a2, a3, a4, a5, a6, a7, a8, a9, a10, e1, hl1, hr1⟩ := h12
  obtain ⟨b1, b2, b3, b4, b5, b6, b7, b8, b9, b10, e2, hl2, hr2⟩ := h23
  refine ⟨b1.trans a1, b2.trans a2, b3.trans a3, b4.trans a4, b5.trans a5, b6.trans a6,
    b7.trans a7, b8.trans a8, b9.trans a9, b10.trans a10, e1 ++ e2, ?_, ?_⟩
  · rw [hl2, hl1, List.append_assoc]
  · rw [Event.reads_append, hr1, hr2]; rfl

theorem Frame.emit (w : ImageClassifierWindow) (e : Event) (h : Event.reads [e] = []) :
    Frame w (w.emit e) :=
  ⟨rfl, rfl, rfl, rfl, rfl, rfl, rfl, rfl, rfl, rfl, [e], rfl, h⟩

theorem Frame.update_class (c : ImageClass) (w : ImageClassifierWindow) :
    Frame w (update_class c w) := by
  unfold ImageClassifierWindow.update_class
  split_ifs
  · exact (Frame.emit w (Event.calculate_icon c) rfl).trans
      (Frame.emit _ (Event.update_images c) rfl)
  · exact Frame.refl w

theorem Frame.remove_highlight (c : ImageClass) (w : ImageClassifierWindow) :
    Frame w (remove_highlight c w) :=
  ⟨rfl, rfl, rfl, rfl, rfl, rfl, rfl, rfl, rfl, rfl, [Event.set_highlighted c false], rfl, rfl⟩

theorem Frame.setState (state : BrowseState) (w : ImageClassifierWindow) :
    Frame w (setState state w) := by
  have hset : ∀ (v : ImageClassifierWindow) (sc : Option Scene) (st : BrowseState),
      Frame v { v with view_scene := sc, m_state := st } := fun v sc st =>
    ⟨rfl, rfl, rfl, rfl, rfl, rfl, rfl, rfl, rfl, rfl, [], by simp, rfl⟩
  have hrm : ∀ (v : ImageClassifierWindow), Frame v { v with m_image_removed := false } :=
    fun v => ⟨rfl, rfl, rfl, rfl, rfl, rfl, rfl, rfl, rfl, rfl, [], by simp, rfl⟩
  unfold ImageClassifierWindow.setState
  simp only []
  split_ifs
  all_goals first
    | exact hset _ _ _
    | exact Frame.refl w
    | (refine Frame.trans ?_ (hset _ _ _)
       refine Frame.trans ?_ (hrm _)
       cases hc : w.m_current_class with
       | none => exact Frame.refl w
       | some c =>
         first
           | exact (Frame.update_class c w).trans (Frame.remove_highlight c _)
           | exact Frame.remove_highlight c w)

theorem Frame.classify_loop (cs : List ImageClass) (w : ImageClassifierWindow) :
    Frame w (cs.foldl (fun w image_class =>
      if (w.m_new_image_map image_class).length > 0 then
        ImageClassifierWindow.update_class image_class w
      else w) w) := by
  induction cs generalizing w with
  | nil => exact Frame.refl w
  | cons c cs ih =>
    simp only [List.foldl_cons]
    refine Frame.trans ?_ (ih _)
    split_ifs
    · exact Frame.update_class c w
    · exact Frame.refl w

end ImageClassifierWindow

/-! ### ImageClassifierWindow::checkStatus -/

namespace ImageClassifierWindow

/-- A poll that does not find the job of the current task finished changes
nothing. -/
theorem checkStatus_unfinished (isFinished : QFuture → Bool) (w : ImageClassifierWindow)
    (h : ¬((w.m_current_task = ProgramTask.POSITIONING ∧ isFinished w.m_positioner = true) ∨
      (w.m_current_task = ProgramTask.CLASSIFYING ∧
        isFinished w.m_classifierProcess = true))) :
    checkStatus isFinished w = w := by
  rw [not_or, not_and, not_and] at h
  unfold checkStatus
  by_cases hp : w.m_current_task = ProgramTask.POSITIONING
  · have := h.1 hp
    simp [hp, this]
  · by_cases hc : w.m_current_task = ProgramTask.CLASSIFYING
    · have := h.2 hc
      simp [hc, this]
    · simp [hp, hc]

theorem checkStatus_positioned (isFinished : QFuture → Bool) (w : ImageClassifierWindow)
    (ht : w.m_current_task = ProgramTask.POSITIONING) (hf : isFinished w.m_positioner = true) :
    checkStatus isFinished w =
      { render_class w with
        m_status_checker := none
        view_enabled := true
        loading_screen_shown := false
        m_current_task := ProgramTask.IDLE } := by
  unfold checkStatus
  simp [ht, hf]

theorem checkStatus_classified (isFinished : QFuture → Bool) (w : ImageClassifierWindow)
    (ht : w.m_current_task = ProgramTask.CLASSIFYING)
    (hf : isFinished w.m_classifierProcess = true) :
    checkStatus isFinished w =
      { (w.image_classes.foldl (fun w image_class =>
          if (w.m_new_image_map image_class).length > 0 then update_class image_class w
          else w) w) with
        m_status_checker := none
        view_enabled := true
        loading_screen_shown := false
        m_current_task := ProgramTask.IDLE } := by
  unfold checkStatus
  simp [ht, hf]

/-- What `render_class` adds to the log and what it leaves alone. -/
theorem render_class_log (w : ImageClassifierWindow) :
    (render_class w).m_positioner = w.m_positioner ∧
    (render_class w).m_current_class = w.m_current_class ∧
    (render_class w).submitted = w.submitted ∧
    ∃ evs, (render_class w).log = w.log ++ evs ∧ Event.reads evs = [w.m_positioner] := by
  obtain ⟨_, h2, h3, _, _, _, _, _, _, h10, evs, hl, hr⟩ :=
    Frame.setState BrowseState.CLASS (w.emit (Event.result w.m_positioner))
  refine ⟨h3, h2, h10, Event.result w.m_positioner :: evs, ?_, ?_⟩
  · unfold render_class
    rw [hl]
    simp [emit]
  · simp [Event.reads, hr]

/-- What one poll adds to the log and what it leaves alone. -/
theorem checkStatus_log (isFinished : QFuture → Bool) (w : ImageClassifierWindow) :
    (checkStatus isFinished w).m_positioner = w.m_positioner ∧
    (checkStatus isFinished w).m_current_class = w.m_current_class ∧
    (checkStatus isFinished w).submitted = w.submitted ∧
    ∃ evs, (checkStatus isFinished w).log = w.log ++ evs ∧
      Event.reads evs =
        if w.m_current_task = ProgramTask.POSITIONING ∧ isFinished w.m_positioner = true
        then [w.m_positioner] else [] := by
  by_cases hp : w.m_current_task = ProgramTask.POSITIONING ∧ isFinished w.m_positioner = true
  · rw [checkStatus_positioned isFinished w hp.1 hp.2, if_pos hp]
    exact render_class_log w
  · rw [if_neg hp]
    by_cases hc : w.m_current_task = ProgramTask.CLASSIFYING ∧
        isFinished w.m_classifierProcess = true
    · rw [checkStatus_classified isFinished w hc.1 hc.2]
      obtain ⟨_, h2, h3, _, _, _, _, _, _, h10, evs, hl, hr⟩ :=
        Frame.classify_loop w.image_classes w
      exact ⟨h3, h2, h10, evs, hl, hr⟩
    · rw [checkStatus_unfinished isFinished w (not_or.mpr ⟨hp, hc⟩)]
      exact ⟨rfl, rfl, rfl, [], by simp, rfl⟩

/-- What a run of polls adds to the log: every result read is that of the handle
held when the run began, and the handle is still held afterwards. -/
theorem polls_log (answers : List (QFuture → Bool)) (w : ImageClassifierWindow) :
    (polls answers w).m_positioner = w.m_positioner ∧
    (polls answers w).m_current_class = w.m_current_class ∧
    (polls answers w).submitted = w.submitted ∧
    ∃ evs, (polls answers w).log = w.log ++ evs ∧
      ∀ f, f ∈ Event.reads evs → f = w.m_positioner := by
  induction answers generalizing w with
  | nil => exact ⟨rfl, rfl, rfl, [], by simp [polls], by simp [Event.reads]⟩
  | cons a as ih =>
    obtain ⟨h1, h2, h3, evs1, hl1, hr1⟩ := checkStatus_log a w
    obtain ⟨k1, k2, k3, evs2, hl2, hr2⟩ := ih (checkStatus a w)
    have e : polls (a :: as) w = polls as (checkStatus a w) := rfl
    rw [e]
    refine ⟨k1.trans h1, k2.trans h2, k3.trans h3, evs1 ++ evs2, ?_, ?_⟩
    · rw [hl2, hl1, List.append_assoc]
    · intro f hf
      rw [Event.reads_append, List.mem_append] at hf
      rcases hf with hf | hf
      · rw [hr1] at hf
        split_ifs at hf
        · simpa using hf
        · simp at hf
      · rw [← h1]
        exact hr2 f hf

theorem polls_idle (answers : List (QFuture → Bool)) (w : ImageClassifierWindow)
    (h : w.m_current_task = ProgramTask.IDLE) : polls answers w = w := by
  induction answers with
  | nil => rfl
  | cons a as ih =>
    have e : polls (a :: as) w = polls as (checkStatus a w) := rfl
    rw [e, checkStatus_unfinished a w (by simp [h]), ih]

end ImageClassifierWindow

/-- C5: in every invocation of `checkStatus`, `m_positioner.result()` is read
(by `render_class`) if and only if the current task is `POSITIONING` and
`m_positioner.isFinished()` returned true; it is then read exactly once, from the
handle `m_positioner`, and otherwise not at all. -/
theorem ImageClassifierWindow.checkStatus_reads_result_iff_finished
    (isFinished : QFuture → Bool) (w : ImageClassifierWindow) :
    ((∃ f, Event.result f ∈ ImageClassifierWindow.emitted w (ImageClassifierWindow.checkStatus isFinished w)) ↔
      (w.m_current_task = ProgramTask.POSITIONING ∧ isFinished w.m_positioner = true)) ∧
    Event.reads (ImageClassifierWindow.emitted w (ImageClassifierWindow.checkStatus isFinished w)) =
      if w.m_current_task = ProgramTask.POSITIONING ∧ isFinished w.m_positioner = true
      then [w.m_positioner] else [] := by
  obtain ⟨_, _, _, evs, hl, hr⟩ := ImageClassifierWindow.checkStatus_log isFinished w
  have he : ImageClassifierWindow.emitted w (ImageClassifierWindow.checkStatus isFinished w) = evs :=
    ImageClassifierWindow.emitted_of_log hl
  rw [he]
  refine ⟨?_, hr⟩
  constructor
  · rintro ⟨f, hf⟩
    rw [← Event.mem_reads, hr] at hf
    by_contra hn
    rw [if_neg hn] at hf
    simp at hf
  · intro hc
    refine ⟨w.m_positioner, ?_⟩
    rw [← Event.mem_reads, hr, if_pos hc]
    simp

theorem ImageClassifierWindow.examples_evaluate :
    ImageClassifierWindow.exampleWindow.m_state = BrowseState.CLASSES ∧
    ImageClassifierWindow.exampleWindow.m_current_task = ProgramTask.IDLE ∧
    ImageClassifierWindow.exampleWindow.view_scene = some Scene.m_scene_classes ∧
    ImageClassifierWindow.examplePositioning.m_current_task = ProgramTask.POSITIONING ∧
    ImageClassifierWindow.examplePositioning.m_positioner = QFuture.handle 0 ∧
    ImageClassifierWindow.examplePositioning.view_enabled = false ∧
    ImageClassifierWindow.examplePositioning.m_status_checker = some 100 ∧
    ImageClassifierWindow.exampleClassifying.m_current_task = ProgramTask.CLASSIFYING ∧
    ImageClassifierWindow.exampleClassView.m_state = BrowseState.CLASS ∧
    ImageClassifierWindow.exampleClassView.m_current_task = ProgramTask.IDLE ∧
    ImageClassifierWindow.exampleClassView.m_status_checker = none ∧
    ImageClassifierWindow.exampleClassView.log =
      [Event.calculate_icon 0, Event.calculate_icon 1, Event.result (QFuture.handle 0)] ∧
    ImageClassifierWindow.exampleImageView.m_state = BrowseState.IMAGE ∧
    ImageClassifierWindow.exampleImageView.view_scene = some Scene.m_scene_image := by
  refine ⟨rfl, rfl, rfl, rfl, rfl, rfl, rfl, rfl, rfl, rfl, rfl, rfl, rfl, rfl⟩

/-! ### ImageClassifierWindow::classClicked -/

namespace ImageClassifierWindow

theorem classClicked_fields (c : ImageClass) (w : ImageClassifierWindow) :
    (classClicked c w).m_positioner = QFuture.handle w.submitted.length ∧
    (classClicked c w).submitted = w.submitted ++ [Job.calculate_image_positions c] ∧
    (classClicked c w).m_current_class = some c ∧
    (classClicked c w).m_current_task = ProgramTask.POSITIONING ∧
    (classClicked c w).m_status_checker = some 100 := by
  simp [classClicked, start_task, run]

/-- C6: after `classClicked(c1)` followed by `classClicked(c2)` the one task
handle the window holds is the handle of the job of `c2` and not the handle the
first click stored, `m_current_class` is `c2` and the current task is
`POSITIONING`; a poll that finds the handle finished reads exactly the result of
that handle, and in every run of polls that follows every result read is that of
the handle of `c2`, never that of the handle of `c1`. -/
theorem classClicked_supersedes (w : ImageClassifierWindow) (c1 c2 : ImageClass) :
    (classClicked c2 (classClicked c1 w)).m_positioner ≠ (classClicked c1 w).m_positioner ∧
    (classClicked c1 w).job_of (classClicked c1 w).m_positioner =
      some (Job.calculate_image_positions c1) ∧
    (classClicked c2 (classClicked c1 w)).job_of (classClicked c2 (classClicked c1 w)).m_positioner =
      some (Job.calculate_image_positions c2) ∧
    (classClicked c2 (classClicked c1 w)).m_current_class = some c2 ∧
    (classClicked c2 (classClicked c1 w)).m_current_task = ProgramTask.POSITIONING ∧
    (∀ isFinished : QFuture → Bool,
      isFinished (classClicked c2 (classClicked c1 w)).m_positioner = true →
      Event.reads (emitted (classClicked c2 (classClicked c1 w))
          (checkStatus isFinished (classClicked c2 (classClicked c1 w)))) =
        [(classClicked c2 (classClicked c1 w)).m_positioner]) ∧
    (∀ (answers : List (QFuture → Bool)) (f : QFuture),
      Event.result f ∈ emitted (classClicked c2 (classClicked c1 w))
          (polls answers (classClicked c2 (classClicked c1 w))) →
        f = (classClicked c2 (classClicked c1 w)).m_positioner) ∧
    (∀ answers : List (QFuture → Bool),
      Event.result (classClicked c1 w).m_positioner ∉
        emitted (classClicked c2 (classClicked c1 w))
          (polls answers (classClicked c2 (classClicked c1 w)))) := by
  obtain ⟨p1, s1, _, _, _⟩ := classClicked_fields c1 w
  obtain ⟨p2, s2, k2, t2, _⟩ := classClicked_fields c2 (classClicked c1 w)
  have hne : (classClicked c2 (classClicked c1 w)).m_positioner ≠
      (classClicked c1 w).m_positioner := by
    rw [p2, p1, s1]
    simp
  have hall : ∀ (answers : List (QFuture → Bool)) (f : QFuture),
      Event.result f ∈ emitted (classClicked c2 (classClicked c1 w))
          (polls answers (classClicked c2 (classClicked c1 w))) →
        f = (classClicked c2 (classClicked c1 w)).m_positioner := by
    intro answers f hf
    obtain ⟨_, _, _, evs, hl, hr⟩ := polls_log answers (classClicked c2 (classClicked c1 w))
    rw [emitted_of_log hl] at hf
    exact hr f ((Event.mem_reads f evs).mpr hf)
  refine ⟨hne, ?_, ?_, k2, t2, ?_, hall, ?_⟩
  · rw [p1]
    simp [job_of, s1]
  · rw [p2]
    simp [job_of, s2]
  · intro isFinished hfin
    obtain ⟨_, _, _, evs, hl, hr⟩ :=
      checkStatus_log isFinished (classClicked c2 (classClicked c1 w))
    rw [emitted_of_log hl, hr, if_pos ⟨t2, hfin⟩]
  · intro answers hmem
    exact hne (hall answers _ hmem).symm

theorem classClicked_supersedes_witness :
    (classClicked 1 (classClicked 0 exampleWindow)).m_positioner = QFuture.handle 1 ∧
    (classClicked 0 exampleWindow).m_positioner = QFuture.handle 0 ∧
    (classClicked 1 (classClicked 0 exampleWindow)).job_of (QFuture.handle 1) =
      some (Job.calculate_image_positions 1) ∧
    Event.reads (emitted (classClicked 1 (classClicked 0 exampleWindow))
        (checkStatus (fun _ => true) (classClicked 1 (classClicked 0 exampleWindow)))) =
      [QFuture.handle 1] ∧
    Event.result (QFuture.handle 0) ∉
      emitted (classClicked 1 (classClicked 0 exampleWindow))
        (polls [fun _ => false, fun _ => true, fun _ => true]
          (classClicked 1 (classClicked 0 exampleWindow))) :=
  ⟨rfl, rfl, (classClicked_supersedes exampleWindow 0 1).2.2.1,
    (classClicked_supersedes exampleWindow 0 1).2.2.2.2.2.1 (fun _ => true) rfl,
    (classClicked_supersedes exampleWindow 0 1).2.2.2.2.2.2.2
      [fun _ => false, fun _ => true, fun _ => true]⟩

end ImageClassifierWindow

/-! ### ImageClassifierWindow::keyPressEvent -/

namespace ImageClassifierWindow

/-- C7: `keyPressEvent(Escape)` takes `m_state` from `IMAGE` to `CLASS` and from
`CLASS` to `CLASSES`, in both cases showing the scene of the new state, and
leaves a window in state `CLASSES` unchanged. -/
theorem keyPressEvent_Escape_moves_up (w : ImageClassifierWindow) :
    (w.m_state = BrowseState.IMAGE →
      (keyPressEvent Key.Key_Escape w).m_state = BrowseState.CLASS ∧
      (keyPressEvent Key.Key_Escape w).view_scene = some Scene.m_scene_class) ∧
    (w.m_state = BrowseState.CLASS →
      (keyPressEvent Key.Key_Escape w).m_state = BrowseState.CLASSES ∧
      (keyPressEvent Key.Key_Escape w).view_scene = some Scene.m_scene_classes) ∧
    (w.m_state = BrowseState.CLASSES → keyPressEvent Key.Key_Escape w = w) := by
  refine ⟨?_, ?_, ?_⟩
  · intro h
    simp [keyPressEvent, setState, h]
  · intro h
    simp [keyPressEvent, setState, h]
  · intro h
    simp [keyPressEvent, h]

theorem keyPressEvent_Escape_moves_up_witness :
    (exampleImageView.m_state = BrowseState.IMAGE ∧
      (keyPressEvent Key.Key_Escape exampleImageView).m_state = BrowseState.CLASS ∧
      (keyPressEvent Key.Key_Escape exampleImageView).view_scene = some Scene.m_scene_class) ∧
    (exampleClassView.m_state = BrowseState.CLASS ∧
      (keyPressEvent Key.Key_Escape exampleClassView).m_state = BrowseState.CLASSES ∧
      (keyPressEvent Key.Key_Escape exampleClassView).view_scene =
        some Scene.m_scene_classes) ∧
    (exampleWindow.m_state = BrowseState.CLASSES ∧
      keyPressEvent Key.Key_Escape exampleWindow = exampleWindow) :=
  ⟨⟨rfl, (keyPressEvent_Escape_moves_up exampleImageView).1 rfl⟩,
    ⟨rfl, (keyPressEvent_Escape_moves_up exampleClassView).2.1 rfl⟩,
    ⟨rfl, (keyPressEvent_Escape_moves_up exampleWindow).2.2 rfl⟩⟩

/-- C10: if the task is `POSITIONING` or `CLASSIFYING` and its future reports
finished, then after `checkStatus` the status timer is stopped, the view is
enabled and `m_current_task` is `IDLE`; in every other case `checkStatus` leaves
`m_current_task` and the timer as they were; and after `start_task(IDLE)` no run
of polls stops the timer, which keeps running at 100 ms with the task `IDLE`. -/
theorem checkStatus_ends_polling_iff_finished (isFinished : QFuture → Bool)
    (w : ImageClassifierWindow) :
    (((w.m_current_task = ProgramTask.POSITIONING ∧ isFinished w.m_positioner = true) ∨
        (w.m_current_task = ProgramTask.CLASSIFYING ∧
          isFinished w.m_classifierProcess = true)) →
      (checkStatus isFinished w).m_status_checker = none ∧
      (checkStatus isFinished w).view_enabled = true ∧
      (checkStatus isFinished w).m_current_task = ProgramTask.IDLE) ∧
    (¬((w.m_current_task = ProgramTask.POSITIONING ∧ isFinished w.m_positioner = true) ∨
        (w.m_current_task = ProgramTask.CLASSIFYING ∧
          isFinished w.m_classifierProcess = true)) →
      (checkStatus isFinished w).m_current_task = w.m_current_task ∧
      (checkStatus isFinished w).m_status_checker = w.m_status_checker) ∧
    (∀ answers : List (QFuture → Bool),
      (polls answers (start_task ProgramTask.IDLE w)).m_status_checker = some 100 ∧
      (polls answers (start_task ProgramTask.IDLE w)).m_current_task = ProgramTask.IDLE) := by
  refine ⟨?_, ?_, ?_⟩
  · rintro (⟨ht, hf⟩ | ⟨ht, hf⟩)
    · rw [checkStatus_positioned isFinished w ht hf]
      exact ⟨rfl, rfl, rfl⟩
    · rw [checkStatus_classified isFinished w ht hf]
      exact ⟨rfl, rfl, rfl⟩
  · intro h
    rw [checkStatus_unfinished isFinished w h]
    exact ⟨rfl, rfl⟩
  · intro answers
    rw [polls_idle answers (start_task ProgramTask.IDLE w) rfl]
    exact ⟨rfl, rfl⟩

theorem checkStatus_ends_polling_iff_finished_witness :
    (examplePositioning.m_current_task = ProgramTask.POSITIONING ∧
      (checkStatus (fun _ => true) examplePositioning).m_status_checker = none ∧
      (checkStatus (fun _ => true) examplePositioning).view_enabled = true ∧
      (checkStatus (fun _ => true) examplePositioning).m_current_task = ProgramTask.IDLE) ∧
    (exampleClassifying.m_current_task = ProgramTask.CLASSIFYING ∧
      (checkStatus (fun _ => true) exampleClassifying).m_status_checker = none ∧
      (checkStatus (fun _ => true) exampleClassifying).view_enabled = true ∧
      (checkStatus (fun _ => true) exampleClassifying).m_current_task = ProgramTask.IDLE) ∧
    ((checkStatus (fun _ => false) examplePositioning).m_current_task =
        ProgramTask.POSITIONING ∧
      (checkStatus (fun _ => false) examplePositioning).m_status_checker = some 100) ∧
    ((polls [fun _ => true, fun _ => true] (start_task ProgramTask.IDLE exampleWindow)).m_status_checker
        = some 100 ∧
      (polls [fun _ => true, fun _ => true] (start_task ProgramTask.IDLE exampleWindow)).m_current_task
        = ProgramTask.IDLE) :=
  ⟨⟨rfl, (checkStatus_ends_polling_iff_finished (fun _ => true) examplePositioning).1
      (Or.inl ⟨rfl, rfl⟩)⟩,
    ⟨rfl, (checkStatus_ends_polling_iff_finished (fun _ => true) exampleClassifying).1
      (Or.inr ⟨rfl, rfl⟩)⟩,
    (checkStatus_ends_polling_iff_finished (fun _ => false) examplePositioning).2.1
      (by decide),
    (checkStatus_ends_polling_iff_finished (fun _ => true) exampleWindow).2.2
      [fun _ => true, fun _ => true]⟩

end ImageClassifierWindow
